import Mathlib

/-!
Verification of the client-side file-intake, face-selection, request-building
and job-polling logic of the FaceFinder.AI frontend.

The JavaScript sources are shallowly embedded as pure Lean functions:

* browser `File` objects become `FileObj` (a name plus an opaque payload tag);
* the JSZip archive library is modelled at its observable boundary: a loaded
  archive is a list of `ZipEntry` (entry name, directory flag, payload), and
  `zip.file(name, data)` on a fresh archive is an association-list update;
* DOM side effects that carry program state (the rendered face thumbnails, the
  `selected` CSS class, the status line, the download link) become record
  fields; `showMessage`/`alert` calls are logged in order;
* `fetch`/XHR calls are suspension points: each handler is a function from the
  (explicitly passed) response to the next state, and a polling loop is a fold
  of one-tick transitions over the list of successive fetch outcomes;
* event handlers become transition functions on a state record, and the set of
  states reachable by user interaction is an inductive `Reachable` predicate.
-/

/-- Lower-cases a string character-wise (model of JS `toLowerCase` for the
ASCII names involved). Working on `List Char` keeps everything kernel-reducible. -/
def toLowerChars (s : String) : List Char := s.data.map Char.toLower

/-- Case-insensitive "ends with" test on a string, the model of
`/suffix$/i.test(name)` and `name.toLowerCase().endsWith(suffix)`. -/
def endsWithCI (s : String) (suffix : List Char) : Bool :=
  List.isSuffixOf suffix (toLowerChars s)

/-- Model of JS `String.prototype.startsWith` (case-sensitive). -/
def startsWithStr (s pre : String) : Bool :=
  List.isPrefixOf pre.data s.data

/-- The supported-image-extension test `/\.(jpg|jpeg|png)$/i.test(fn)` used by
`step1.js` and `docs/js/step2.js` on archive entry names. -/
def isSupportedImageName (n : String) : Bool :=
  endsWithCI n ".jpg".data || endsWithCI n ".jpeg".data || endsWithCI n ".png".data

/-- Test `f.name.toLowerCase().endsWith(".zip")` classifying a raw file as an
archive. -/
def isZipName (n : String) : Bool :=
  endsWithCI n ".zip".data

/-- A browser `File` object: its user-visible name and an opaque payload tag
standing for the binary contents. -/
structure FileObj where
  name : String
  payload : Nat
deriving DecidableEq

/-- Outcome of an event handler that either returns early with a reported
message (`err`, meaning no network call was made) or proceeds (`ok`). -/
inductive HandlerResult (α : Type) where
  | err (msg : String)
  | ok (val : α)
deriving DecidableEq

/-- The single artifact transmitted as the `target` form field: either a plain
file or a built archive (name plus ordered entry list). -/
inductive TargetArtifact
  | file (f : FileObj)
  | archive (name : String) (entries : List (String × FileObj))
deriving DecidableEq

/-- Model of `zip.file(name, data)` of JSZip on the archive being built in
`createTargetZip`: adding an entry whose name is already present replaces that
entry in place, otherwise the entry is appended. -/
def zipAdd (entries : List (String × FileObj)) (n : String) (f : FileObj) :
    List (String × FileObj) :=
  if entries.any (fun e => e.1 == n) then
    entries.map (fun e => if e.1 == n then (n, f) else e)
  else entries ++ [(n, f)]

/-- Embedding of `createTargetZip` (`frontend/js/step3.js`, lines 39-45): with
no target files it returns `null`; otherwise it zips every target file under
its original name into a fresh archive called `all_targets.zip`. -/
def createTargetZip (targetFiles : List FileObj) : Option TargetArtifact :=
  if targetFiles.length = 0 then none
  else some (TargetArtifact.archive "all_targets.zip"
    (targetFiles.foldl (fun acc f => zipAdd acc f.name f) []))

/-- Embedding of the target-selection part of the `matchBtn` click handler of
`frontend/js/step3.js` (lines 79-104): an empty target list is reported and no
request is sent; otherwise `createTargetZip` is invoked and its result is the
`target` form field of the outgoing request. `HandlerResult.err` means the
handler returned before `xhr.send`, so no network call was made. -/
def step3MatchTarget (targetFiles : List FileObj) : HandlerResult TargetArtifact :=
  if targetFiles.length = 0 then HandlerResult.err "Please select at least one target file."
  else
    match createTargetZip targetFiles with
    | none => HandlerResult.err "No valid target files to upload."
    | some z => HandlerResult.ok z

/-- JS `Array.prototype.join(",")` over the selected face indices, the wire
format of the `selected_indices_str` form field. -/
def joinComma : List Nat → String
  | [] => ""
  | [i] => toString i
  | i :: rest => toString i ++ "," ++ joinComma rest

/-- The outbound match request form data assembled by the `matchBtn` click
handlers of `unnamed/part_001` (`initMatcher`) and `frontend/js/app.js`:
fields `reference`, `target`, `selected_indices_str` and `mode`. -/
structure MatchFormData where
  reference : FileObj
  target : FileObj
  selectedIndicesStr : String
  mode : String
deriving DecidableEq

/-- Embedding of the validation-and-build part of the `matchBtn` click handler
(`unnamed/part_001` lines 9-21; `frontend/js/app.js` lines 35-47 is identical
up to `alert` versus `showMessage`): the handler returns early with a message
on the first failed check - `err` means no network call is made for the
attempt - and otherwise sends the form data. The mode radio value is forwarded
without any validation. -/
def matchBtnBuild (refFile targetFile : Option FileObj) (selected : List Nat)
    (mode : String) : HandlerResult MatchFormData :=
  match refFile, targetFile with
  | some r, some t =>
    if selected.length = 0 then HandlerResult.err "Select at least one face!"
    else HandlerResult.ok ⟨r, t, joinComma selected, mode⟩
  | _, _ => HandlerResult.err "Select reference and target files!"

/-- One entry of a loaded JSZip archive: its full path name inside the
archive, JSZip's directory flag (set from a trailing slash or from the zip's
external attributes, so a name matching an image extension may still be a
directory), and an opaque payload. -/
structure ZipEntry where
  name : String
  dir : Bool
  payload : Nat
deriving DecidableEq

/-- A raw file handed to an intake handler: name, declared MIME type, opaque
payload and - when the file can be decoded as a zip archive - its entry list
(`none` models a `JSZip.loadAsync` failure). -/
structure RawFile where
  name : String
  mediaType : String
  payload : Nat
  zipEntries : Option (List ZipEntry)
deriving DecidableEq

/-- Classification `f.type.startsWith("image/")` of `step1.js` line 91. -/
def isImageFile (f : RawFile) : Bool := startsWithStr f.mediaType "image/"

/-- JS `zipEntry.name.split("/").pop()`: the part of an archive entry path
after the last slash. -/
def baseName (n : String) : String :=
  String.mk ((n.data.reverse.takeWhile (fun c => c != '/')).reverse)

/-- The `File` object built for an extracted archive member (`step1.js` line
111): base name of the entry path, payload of the decompressed entry. -/
def extractFile (e : ZipEntry) : FileObj := ⟨baseName e.name, e.payload⟩

/-- The files extracted from an archive's entries by the loop of `step1.js`
lines 107-115: the entries whose names match the supported image extensions,
minus directory entries, each turned into a fresh `File`. -/
def extractedOf (entries : List ZipEntry) : List FileObj :=
  ((entries.filter (fun e => isSupportedImageName e.name)).filter
    (fun e => !e.dir)).map extractFile

/-- One user-facing upload row of `step1.js`: a plain image, or an archive
together with everything it expanded into. -/
inductive DisplayEntry
  | image (f : RawFile)
  | archive (f : RawFile) (extractedFiles : List FileObj)
deriving DecidableEq

/-- The `showMessage` error notices issued by the intake loop, in order. -/
inductive IntakeMsg
  | zipEmpty (name : String)
  | zipFailed (name : String)
  | unsupportedFile (name : String)
deriving DecidableEq

/-- The module state of `step1.js`: the effective file set `referenceFiles`,
the row list `displayFiles`, and the log of error notices shown. -/
structure Step1State where
  referenceFiles : List FileObj
  displayFiles : List DisplayEntry
  messages : List IntakeMsg
deriving DecidableEq

/-- One iteration of the `for(let f of files)` loop of `handleFiles`
(`frontend/js/step1.js` lines 88-127; `docs/js/step2.js` lines 86-135 is the
same logic for the target set): an image is appended unconditionally to the
effective set and the row list; a zip is expanded, rejected with a notice if
no entry name matches a supported image extension (the emptiness check runs
before directory filtering), and otherwise contributes its extracted
non-directory image entries; anything else is rejected with a notice. -/
def handleOneFile (st : Step1State) (f : RawFile) : Step1State :=
  if isImageFile f then
    { st with referenceFiles := st.referenceFiles ++ [⟨f.name, f.payload⟩],
              displayFiles := st.displayFiles ++ [DisplayEntry.image f] }
  else if isZipName f.name then
    match f.zipEntries with
    | some entries =>
      if (entries.filter (fun e => isSupportedImageName e.name)).length = 0 then
        { st with messages := st.messages ++ [IntakeMsg.zipEmpty f.name] }
      else
        { st with referenceFiles := st.referenceFiles ++ extractedOf entries,
                  displayFiles := st.displayFiles ++
                    [DisplayEntry.archive f (extractedOf entries)] }
    | none => { st with messages := st.messages ++ [IntakeMsg.zipFailed f.name] }
  else { st with messages := st.messages ++ [IntakeMsg.unsupportedFile f.name] }

/-- The whole `handleFiles(files)` batch loop of `step1.js`. -/
def handleFiles (st : Step1State) (files : List RawFile) : Step1State :=
  files.foldl handleOneFile st

/-- The initial `step1.js` module state: empty arrays. -/
def step1Init : Step1State := ⟨[], [], []⟩

/-- The `filesList` update of `handleFiles` in `frontend/js/dragDrop.js`
(lines 53-63): each incoming file is skipped when a file with the same name is
already in the list, otherwise it replaces the list (single-file zones) or is
appended (multi-file zones). -/
def dropHandleFiles (allowMultiple : Bool) (filesList newFiles : List FileObj) :
    List FileObj :=
  newFiles.foldl (fun acc f =>
    if acc.any (fun g => g.name == f.name) then acc
    else if allowMultiple then acc ++ [f] else [f]) filesList

/-- The `filesList` states reachable in one `setupDropZone` zone: the list
starts empty and evolves by `handleFiles` batches, by per-row delete-button
splices, and by `resetDropZone`. -/
inductive DropReachable (allowMultiple : Bool) : List FileObj → Prop
  | init : DropReachable allowMultiple []
  | addFiles (st newFiles : List FileObj) :
      DropReachable allowMultiple st →
      DropReachable allowMultiple (dropHandleFiles allowMultiple st newFiles)
  | deleteAt (st : List FileObj) (i : Nat) :
      DropReachable allowMultiple st → DropReachable allowMultiple (st.eraseIdx i)
  | reset (st : List FileObj) :
      DropReachable allowMultiple st → DropReachable allowMultiple []

/-- Outcome of one status fetch of the polling loop: a successful response
with its JSON `status` and `result` strings, or a transport-level failure (a
rejected `fetch` or unparsable body). -/
inductive FetchResult
  | ok (status : String) (result : String)
  | fail
deriving DecidableEq

/-- The job-scoped download endpoint assigned to `downloadLink.href` when a
poll reports `done`. -/
def downloadUrl (jobId : String) : String := "http://127.0.0.1:8000/download/" ++ jobId

/-- Observable state of one `checkJobStatus` polling loop: number of status
fetches issued so far, whether `clearInterval` has run, the `jobStatus` line,
the download link target (when revealed), and the last `showMessage` text. -/
structure PollState where
  fetches : Nat
  stopped : Bool
  statusText : String
  downloadHref : Option String
  lastMessage : Option String
deriving DecidableEq

/-- The state before the first timer tick. -/
def initPoll : PollState := ⟨0, false, "", none, none⟩

/-- One `setInterval` tick of `checkJobStatus` in `unnamed/part_001` (lines
61-86). A cleared timer fetches nothing. Otherwise one fetch is issued: on
success the status line is updated, `done` clears the timer and reveals the
download link, `error` clears the timer and rewrites the status line; any
throw inside the `try` (transport failure) is caught, clears the timer and
reports the check error. -/
def matcherTick (jobId : String) (st : PollState) (r : FetchResult) : PollState :=
  if st.stopped then st
  else
    match r with
    | FetchResult.ok status result =>
      let st2 := { st with fetches := st.fetches + 1, statusText := "Status: " ++ status }
      if status = "done" then
        { st2 with stopped := true, downloadHref := some (downloadUrl jobId),
                   lastMessage := some "Job completed! You can download the ZIP." }
      else if status = "error" then
        { st2 with stopped := true, statusText := "Error: " ++ result,
                   lastMessage := some "Job failed. Check logs." }
      else st2
    | FetchResult.fail =>
      { st with fetches := st.fetches + 1, stopped := true,
                lastMessage := some "Error checking job status" }

/-- One `setInterval` tick of `checkJobStatus` in `frontend/js/app.js` (lines
67-84). Same success handling as the matcher copy but with no `try`/`catch`:
a transport failure rejects the async callback after the fetch was issued, so
nothing is updated and - crucially - `clearInterval` never runs. -/
def appTick (jobId : String) (st : PollState) (r : FetchResult) : PollState :=
  if st.stopped then st
  else
    match r with
    | FetchResult.ok status result =>
      let st2 := { st with fetches := st.fetches + 1, statusText := "Status: " ++ status }
      if status = "done" then
        { st2 with stopped := true, downloadHref := some (downloadUrl jobId) }
      else if status = "error" then
        { st2 with stopped := true, statusText := "Error: " ++ result }
      else st2
    | FetchResult.fail => { st with fetches := st.fetches + 1 }

/-- The matcher polling loop run against the list of outcomes the successive
ticks' fetches would produce. -/
def runMatcherPoll (jobId : String) (rs : List FetchResult) : PollState :=
  rs.foldl (matcherTick jobId) initPoll

/-- The `frontend/js/app.js` polling loop run the same way. -/
def runAppPoll (jobId : String) (rs : List FetchResult) : PollState :=
  rs.foldl (appTick jobId) initPoll

/-- A successful fetch reporting a status that is neither `done` nor
`error` (the non-terminal ticks of a poll sequence). -/
def isNonTerminalOk : FetchResult → Bool
  | FetchResult.ok s _ => if s = "done" then false else if s = "error" then false else true
  | FetchResult.fail => false

/-- The `jobStatus` line text after a run of non-terminal successful ticks
starting from text `t`. -/
def preStatusText (pre : List FetchResult) (t : String) : String :=
  pre.foldl (fun acc r =>
    match r with
    | FetchResult.ok s _ => "Status: " ++ s
    | FetchResult.fail => acc) t

/-- One detected-face wrapper rendered in `facesContainer` by the advanced
reference module (`unnamed/part_001`, reference.js): the client-assigned
`dataset.index`, the source file name from `face.ref_source` (kept in the img
title), and whether the img currently carries the `selected` class. -/
structure Face where
  id : Nat
  source : String
  sel : Bool
deriving DecidableEq

/-- Combined client state of the reference drop zone of `dragDrop.js`
(`filesList`, tracked by file name - the name is all any handler compares)
and the advanced reference module of `unnamed/part_001`
(`uploadedReferences`, the face wrappers in document order,
`selectedFaceIndices`, `globalFaceIndex`). -/
structure AppState where
  filesList : List String
  uploadedReferences : List String
  faces : List Face
  selected : List Nat
  nextIndex : Nat
deriving DecidableEq

/-- The fresh-page state: every list empty, `globalFaceIndex` zero. -/
def initApp : AppState := ⟨[], [], [], [], 0⟩

/-- The `refDropZone.onFileChange` callback (`unnamed/part_001` lines
118-137), invoked with the drop zone's current file list: it rebuilds
`uploadedReferences` from that list, removes every face wrapper whose source
file name is no longer present, and filters each removed wrapper's index out
of `selectedFaceIndices`. -/
def onFileChange (st : AppState) (newNames : List String) : AppState :=
  let removedIds := (st.faces.filter
    (fun w => !(newNames.contains w.source))).map (fun w => w.id)
  { st with uploadedReferences := newNames,
            faces := st.faces.filter (fun w => newNames.contains w.source),
            selected := st.selected.filter (fun i => !(removedIds.contains i)) }

/-- The drop-zone `handleFiles` batch of `dragDrop.js` at name level (its
duplicate check compares names only; the reference zone allows multiple
files), followed by the `onFileChange` notification issued by
`syncFileInput`. -/
def appDropAdd (st : AppState) (newNames : List String) : AppState :=
  let fl := newNames.foldl
    (fun acc n => if acc.contains n then acc else acc ++ [n]) st.filesList
  onFileChange { st with filesList := fl } fl

/-- The drop-zone per-row delete button of `dragDrop.js` (lines 32-38):
splices the row out of `filesList` and notifies `onFileChange` with the new
list. -/
def appDropDelete (st : AppState) (i : Nat) : AppState :=
  let fl := st.filesList.eraseIdx i
  onFileChange { st with filesList := fl } fl

/-- `resetDropZone` of `dragDrop.js` (lines 65-71): clears the list and
notifies `onFileChange`. -/
def appDropReset (st : AppState) : AppState :=
  onFileChange { st with filesList := [] } []

/-- The wrappers appended for one `/reference-faces/` response: each face
receives `globalFaceIndex++` as its index and starts unselected. -/
def assignIds (n : Nat) : List String → List Face
  | [] => []
  | s :: rest => ⟨n, s, false⟩ :: assignIds (n + 1) rest

/-- The upload-button success handler of `unnamed/part_001` (lines 163-219):
appends one wrapper per reported face, in response order; `sources` lists the
faces' `ref_source` fields. -/
def registerFaces (st : AppState) (sources : List String) : AppState :=
  { st with faces := st.faces ++ assignIds st.nextIndex sources,
            nextIndex := st.nextIndex + sources.length }

/-- The face-thumbnail click handler (`unnamed/part_001` lines 179-187):
toggles the wrapper's `selected` class and recomputes `selectedFaceIndices`
as the indices of the currently selected imgs in document (= registration)
order. -/
def clickFace (st : AppState) (i : Nat) : AppState :=
  let faces := st.faces.map (fun w => if w.id = i then { w with sel := !w.sel } else w)
  { st with faces := faces,
            selected := (faces.filter (fun w => w.sel)).map (fun w => w.id) }

/-- The per-face delete button (`unnamed/part_001` lines 202-214): removes
that wrapper, filters its index out of `selectedFaceIndices`, and - when no
remaining wrapper carries the same source name - removes the source file from
`uploadedReferences`. -/
def deleteFaceAt (st : AppState) (k : Nat) : AppState :=
  match st.faces[k]? with
  | none => st
  | some w =>
    let faces := st.faces.eraseIdx k
    { st with faces := faces,
              selected := st.selected.filter (fun i => i != w.id),
              uploadedReferences :=
                if faces.any (fun v => v.source == w.source) then st.uploadedReferences
                else st.uploadedReferences.filter (fun n => n != w.source) }

/-- `resetReference` (`unnamed/part_001` lines 236-247): clears the module
state, resets `globalFaceIndex`, and resets the drop zone, which notifies
`onFileChange` with the empty list. -/
def resetReference (st : AppState) : AppState :=
  onFileChange { st with uploadedReferences := [], selected := [], nextIndex := 0,
                         faces := [], filesList := [] } []

/-- The client states reachable by user interaction with the components wired
as the sources intend: drop-zone adds, per-row deletes and resets (each
notifying `onFileChange`), uploads registering server-reported faces (the
response's `ref_source` names come from the submitted `uploadedReferences`,
which the button guard requires non-empty), thumbnail clicks on rendered
faces, per-face deletes, and reference resets. -/
inductive Reachable : AppState → Prop
  | init : Reachable initApp
  | dropAdd (st : AppState) (newNames : List String) :
      Reachable st → Reachable (appDropAdd st newNames)
  | dropDelete (st : AppState) (i : Nat) :
      Reachable st → Reachable (appDropDelete st i)
  | dropReset (st : AppState) : Reachable st → Reachable (appDropReset st)
  | upload (st : AppState) (sources : List String) :
      Reachable st → st.uploadedReferences ≠ [] →
      (∀ s ∈ sources, s ∈ st.uploadedReferences) →
      Reachable (registerFaces st sources)
  | click (st : AppState) (i : Nat) :
      Reachable st → i ∈ st.faces.map (fun w => w.id) → Reachable (clickFace st i)
  | deleteFace (st : AppState) (k : Nat) :
      Reachable st → Reachable (deleteFaceAt st k)
  | resetRef (st : AppState) : Reachable st → Reachable (resetReference st)

/-- The selection/registry invariant: `selectedFaceIndices` is exactly the
ids of the currently selected wrappers in document order, and wrapper ids are
strictly increasing (hence unique) and below `globalFaceIndex`. -/
def RegInv (st : AppState) : Prop :=
  st.selected = (st.faces.filter (fun w => w.sel)).map (fun w => w.id) ∧
  (st.faces.map (fun w => w.id)).Pairwise (· < ·) ∧
  ∀ w ∈ st.faces, w.id < st.nextIndex

/-- Concrete reachable state used to witness C5: one reference file, two
registered faces from it, the second one selected. -/
def c5WitnessState : AppState :=
  clickFace (registerFaces (appDropAdd initApp ["r1.jpg"]) ["r1.jpg", "r1.jpg"]) 1

/-- Concrete reachable state used to witness C6: three faces from one file,
ids 2 and then 0 clicked - the stored selection is still ascending. -/
def c6WitnessState : AppState :=
  clickFace (clickFace (registerFaces (appDropAdd initApp ["a.jpg"])
    ["a.jpg", "a.jpg", "a.jpg"]) 2) 0

/-- Concrete state used to witness the amended C10: one reference file with
exactly one registered detection. -/
def c10WitnessState : AppState := registerFaces (appDropAdd initApp ["s.jpg"]) ["s.jpg"]

/-- State of the C10 counterexample trace after two files are dropped and one
face from the first file is registered. -/
def c10MidState : AppState := registerFaces (appDropAdd initApp ["s.jpg", "t.jpg"]) ["s.jpg"]

/-- Final state of the C10 counterexample trace: the face from `s.jpg` is
deleted (which removes `s.jpg` from the uploaded list), then the second drop
zone row is deleted, whose notification rebuilds the uploaded list from the
drop zone's unchanged file list. -/
def c10FinalState : AppState := appDropDelete (deleteFaceAt c10MidState 0) 1

theorem zipBuild_eq_map (ts : List FileObj) (acc : List (String × FileObj))
    (hacc : ∀ f ∈ ts, acc.any (fun e => e.1 == f.name) = false)
    (hnd : (ts.map (fun f => f.name)).Nodup) :
    ts.foldl (fun acc f => zipAdd acc f.name f) acc = acc ++ ts.map (fun f => (f.name, f)) := by
  induction ts generalizing acc with
  | nil => simp
  | cons f t ih =>
    rw [List.map_cons, List.nodup_cons] at hnd
    obtain ⟨hnotin, hnd2⟩ := hnd
    have h1 : acc.any (fun e => e.1 == f.name) = false := hacc f (by simp)
    have hstep : zipAdd acc f.name f = acc ++ [(f.name, f)] := by
      rw [zipAdd, h1]; simp
    have hacc2 : ∀ g ∈ t, (acc ++ [(f.name, f)]).any (fun e => e.1 == g.name) = false := by
      intro g hg
      have hne : (f.name == g.name) = false := by
        apply beq_eq_false_iff_ne.mpr
        intro hEq
        exact hnotin (hEq ▸ List.mem_map_of_mem (fun g => g.name) hg)
      rw [List.any_append, hacc g (List.mem_cons_of_mem f hg), Bool.false_or]
      simp [hne]
    simp only [List.foldl_cons, hstep]
    rw [ih (acc ++ [(f.name, f)]) hacc2 hnd2]
    simp

/-- C1 (amended): for every non-empty target file list, even a singleton, the
transmitted target artifact is exactly one freshly built archive named
`all_targets.zip` containing all N files under their original names (assuming
the target names are pairwise distinct; JSZip would otherwise collapse
duplicate names). No single-file pass-through exists. -/
theorem c1_target_always_archived (ts : List FileObj) (hne : ts ≠ [])
    (hnd : (ts.map (fun f => f.name)).Nodup) :
    step3MatchTarget ts =
      HandlerResult.ok (TargetArtifact.archive "all_targets.zip" (ts.map (fun f => (f.name, f)))) := by
  have hlen : ¬ ts.length = 0 := by simpa using hne
  rw [step3MatchTarget, if_neg hlen, createTargetZip, if_neg hlen,
    zipBuild_eq_map ts [] (by simp) hnd]
  simp

/-- Witness for C1 (amended) at two concrete target files. -/
theorem c1_target_always_archived_witness :
    step3MatchTarget [⟨"a.jpg", 1⟩, ⟨"b.png", 2⟩] =
      HandlerResult.ok (TargetArtifact.archive "all_targets.zip"
        [("a.jpg", ⟨"a.jpg", 1⟩), ("b.png", ⟨"b.png", 2⟩)]) :=
  c1_target_always_archived [⟨"a.jpg", 1⟩, ⟨"b.png", 2⟩] (by decide) (by decide)

/-- Counterexample to C1 as stated: with exactly one target file the handler
does not transmit that file unchanged; it still builds and transmits an
archive (`all_targets.zip`) containing the single file. -/
theorem c1_counterexample :
    step3MatchTarget [⟨"a.jpg", 1⟩] ≠ HandlerResult.ok (TargetArtifact.file ⟨"a.jpg", 1⟩) ∧
    step3MatchTarget [⟨"a.jpg", 1⟩] =
      HandlerResult.ok (TargetArtifact.archive "all_targets.zip" [("a.jpg", ⟨"a.jpg", 1⟩)]) := by
  constructor
  · decide
  · decide

/-- C3 (amended): the handler validates in a fixed short-circuit order - a
missing reference or target file is reported alone, then an empty selection is
reported alone; only the first unmet precondition is named, the mode is never
validated, and a request (network call) is produced exactly when both files
are present and the selection is non-empty. -/
theorem c3_short_circuit_validation (refOpt tgtOpt : Option FileObj) (r t : FileObj)
    (sel : List Nat) (mode : String) :
    ((∃ d, matchBtnBuild refOpt tgtOpt sel mode = HandlerResult.ok d) ↔
      (refOpt.isSome = true ∧ tgtOpt.isSome = true ∧ sel ≠ [])) ∧
    matchBtnBuild none tgtOpt sel mode = HandlerResult.err "Select reference and target files!" ∧
    matchBtnBuild refOpt none sel mode = HandlerResult.err "Select reference and target files!" ∧
    matchBtnBuild (some r) (some t) [] mode = HandlerResult.err "Select at least one face!" ∧
    (sel ≠ [] →
      matchBtnBuild (some r) (some t) sel mode =
        HandlerResult.ok ⟨r, t, joinComma sel, mode⟩) := by
  refine ⟨?_, ?_, ?_, ?_, ?_⟩
  · cases refOpt with
    | none => simp [matchBtnBuild]
    | some r0 =>
      cases tgtOpt with
      | none => simp [matchBtnBuild]
      | some t0 =>
        by_cases hsel : sel = []
        · subst hsel; simp [matchBtnBuild]
        · have hlen : ¬ sel.length = 0 := by simpa [List.length_eq_zero] using hsel
          simp [matchBtnBuild, hlen, hsel]
  · cases tgtOpt <;> simp [matchBtnBuild]
  · cases refOpt <;> simp [matchBtnBuild]
  · simp [matchBtnBuild]
  · intro hsel
    have hlen : ¬ sel.length = 0 := by simpa [List.length_eq_zero] using hsel
    simp [matchBtnBuild, hlen]

/-- Witness for C3 (amended): a fully valid attempt produces the request, with
the unvalidated mode string forwarded verbatim. -/
theorem c3_short_circuit_validation_witness :
    matchBtnBuild (some ⟨"r.jpg", 1⟩) (some ⟨"t.zip", 2⟩) [2, 5] "together" =
      HandlerResult.ok ⟨⟨"r.jpg", 1⟩, ⟨"t.zip", 2⟩, joinComma [2, 5], "together"⟩ ∧
    joinComma [2, 5] = "2,5" :=
  ⟨(c3_short_circuit_validation (some ⟨"r.jpg", 1⟩) (some ⟨"t.zip", 2⟩)
      ⟨"r.jpg", 1⟩ ⟨"t.zip", 2⟩ [2, 5] "together").2.2.2.2 (by decide), by decide⟩

/-- Counterexample to C3 as stated: with every precondition violated at once
(no reference file, no target file, empty selection, unrecognized mode) the
handler reports only the first check's message, not a list of every unmet
precondition; and an unrecognized mode alone triggers no validation error at
all - the request proceeds to the network carrying it. -/
theorem c3_counterexample :
    matchBtnBuild none none [] "bogus-mode" =
      HandlerResult.err "Select reference and target files!" ∧
    matchBtnBuild (some ⟨"r.jpg", 1⟩) (some ⟨"t.zip", 2⟩) [0] "bogus-mode" =
      HandlerResult.ok ⟨⟨"r.jpg", 1⟩, ⟨"t.zip", 2⟩, "0", "bogus-mode"⟩ :=
  ⟨by decide, by decide⟩

theorem dropFold_nodup (am : Bool) (newFiles : List FileObj) :
    ∀ st : List FileObj, (st.map (fun f => f.name)).Nodup →
      ((dropHandleFiles am st newFiles).map (fun f => f.name)).Nodup := by
  induction newFiles with
  | nil =>
    intro st h
    simpa [dropHandleFiles] using h
  | cons f t ih =>
    intro st h
    have heq : dropHandleFiles am st (f :: t) =
        dropHandleFiles am (if st.any (fun g => g.name == f.name) then st
          else if am then st ++ [f] else [f]) t := by
      simp [dropHandleFiles]
    rw [heq]
    apply ih
    by_cases hany : st.any (fun g => g.name == f.name) = true
    · simpa [hany] using h
    · have hnotmem : f.name ∉ st.map (fun g => g.name) := by
        intro hmem
        rcases List.mem_map.mp hmem with ⟨g, hg, hgname⟩
        exact hany (List.any_eq_true.mpr ⟨g, hg, by simpa using hgname⟩)
      cases am with
      | true =>
        have hcond : (if (st.any fun g => g.name == f.name) = true then st
            else if true = true then st ++ [f] else [f]) = st ++ [f] := by
          simp [hany]
        rw [hcond, List.map_append]
        exact List.Nodup.append h (List.nodup_singleton _)
          (by simpa [List.disjoint_singleton] using hnotmem)
      | false => simp [hany]

/-- C2 (amended): only the drop-zone list of `dragDrop.js` deduplicates by
name - in every reachable `filesList` state no name appears twice. The
`step1.js` and `docs/js/step2.js` intake handlers perform no duplicate check
(see the counterexample), so the claim holds for the drop zone only. -/
theorem c2_dropzone_names_unique (am : Bool) (st : List FileObj)
    (h : DropReachable am st) : (st.map (fun f => f.name)).Nodup := by
  induction h with
  | init => simp
  | addFiles st newFiles _ ih => exact dropFold_nodup am newFiles st ih
  | deleteAt st i _ ih => exact ih.sublist ((List.eraseIdx_sublist st i).map _)
  | reset st _ _ => simp

/-- Witness for C2 (amended): adding two same-named files and one fresh one to
an empty drop zone leaves a duplicate-free name list. -/
theorem c2_dropzone_names_unique_witness :
    ((dropHandleFiles true [] [⟨"a.jpg", 1⟩, ⟨"a.jpg", 2⟩, ⟨"b.png", 3⟩]).map
      (fun f => f.name)).Nodup :=
  c2_dropzone_names_unique true _
    (DropReachable.addFiles [] [⟨"a.jpg", 1⟩, ⟨"a.jpg", 2⟩, ⟨"b.png", 3⟩] DropReachable.init)

/-- Counterexample to C2 as stated: the `step1.js` intake handler (one of the
claim's cited handlers) appends a second file with an already-present name
instead of skipping it, so the effective file set holds the name twice. -/
theorem c2_counterexample :
    ((handleFiles step1Init
        [⟨"a.jpg", "image/jpeg", 1, none⟩, ⟨"a.jpg", "image/jpeg", 2, none⟩]).referenceFiles.map
      (fun f => f.name)) = ["a.jpg", "a.jpg"] ∧
    ¬ ((handleFiles step1Init
        [⟨"a.jpg", "image/jpeg", 1, none⟩, ⟨"a.jpg", "image/jpeg", 2, none⟩]).referenceFiles.map
      (fun f => f.name)).Nodup :=
  ⟨by decide, by decide⟩

/-- C4 (confirmed): a raw file classified as an archive whose expansion,
after filtering to supported image extensions, is empty is rejected with the
archive-empty notice (`ZIP contains no supported images`); no DisplayEntry is
created for it, the effective file set is unchanged, and the remaining raw
files of the same batch are still processed from exactly that state. -/
theorem c4_empty_archive_rejected_batch_continues (st : Step1State) (f : RawFile)
    (rest : List RawFile) (entries : List ZipEntry)
    (himg : isImageFile f = false) (hzip : isZipName f.name = true)
    (hent : f.zipEntries = some entries)
    (hempty : entries.filter (fun e => isSupportedImageName e.name) = []) :
    handleOneFile st f =
      { st with messages := st.messages ++ [IntakeMsg.zipEmpty f.name] } ∧
    (handleOneFile st f).referenceFiles = st.referenceFiles ∧
    (handleOneFile st f).displayFiles = st.displayFiles ∧
    handleFiles st (f :: rest) =
      handleFiles { st with messages := st.messages ++ [IntakeMsg.zipEmpty f.name] } rest := by
  have h1 : handleOneFile st f =
      { st with messages := st.messages ++ [IntakeMsg.zipEmpty f.name] } := by
    simp [handleOneFile, himg, hzip, hent, hempty]
  refine ⟨h1, by rw [h1], by rw [h1], ?_⟩
  rw [handleFiles, List.foldl_cons, h1, handleFiles]

/-- Witness for C4 at a concrete batch: an archive holding only `readme.txt`
is rejected, and the following image file of the batch is still processed. -/
theorem c4_empty_archive_rejected_batch_continues_witness :
    handleOneFile step1Init ⟨"album.zip", "application/zip", 7, some [⟨"readme.txt", false, 3⟩]⟩ =
      { step1Init with messages := step1Init.messages ++ [IntakeMsg.zipEmpty "album.zip"] } ∧
    (handleOneFile step1Init
      ⟨"album.zip", "application/zip", 7, some [⟨"readme.txt", false, 3⟩]⟩).referenceFiles =
      step1Init.referenceFiles ∧
    (handleOneFile step1Init
      ⟨"album.zip", "application/zip", 7, some [⟨"readme.txt", false, 3⟩]⟩).displayFiles =
      step1Init.displayFiles ∧
    handleFiles step1Init
      [⟨"album.zip", "application/zip", 7, some [⟨"readme.txt", false, 3⟩]⟩,
       ⟨"b.png", "image/png", 4, none⟩] =
      handleFiles { step1Init with
        messages := step1Init.messages ++ [IntakeMsg.zipEmpty "album.zip"] }
        [⟨"b.png", "image/png", 4, none⟩] :=
  c4_empty_archive_rejected_batch_continues step1Init
    ⟨"album.zip", "application/zip", 7, some [⟨"readme.txt", false, 3⟩]⟩
    [⟨"b.png", "image/png", 4, none⟩] [⟨"readme.txt", false, 3⟩]
    (by decide) (by decide) (by decide) (by decide)

/-- C9 (confirmed): directory entries are never extracted - the extracted list
of any archive equals the one computed after discarding directory entries -
and an archive in which every image-extension-matching name is a directory
entry passes the emptiness check (which counts names before directory
filtering), is not rejected, produces an archive DisplayEntry whose
extracted-file list is empty, and contributes nothing to the effective set. -/
theorem c9_directory_entries_never_extracted (st : Step1State) (f : RawFile)
    (entries : List ZipEntry)
    (himg : isImageFile f = false) (hzip : isZipName f.name = true)
    (hent : f.zipEntries = some entries)
    (hne : entries.filter (fun e => isSupportedImageName e.name) ≠ [])
    (hdir : ∀ e ∈ entries.filter (fun e => isSupportedImageName e.name), e.dir = true) :
    handleOneFile st f =
      { st with displayFiles := st.displayFiles ++ [DisplayEntry.archive f []] } ∧
    (handleOneFile st f).referenceFiles = st.referenceFiles ∧
    (handleOneFile st f).messages = st.messages ∧
    (∀ es : List ZipEntry, extractedOf es = extractedOf (es.filter (fun e => !e.dir))) := by
  have hext : extractedOf entries = [] := by
    rw [extractedOf]
    have : (entries.filter (fun e => isSupportedImageName e.name)).filter
        (fun e => !e.dir) = [] := by
      apply List.filter_eq_nil_iff.mpr
      intro e he
      simp [hdir e he]
    rw [this, List.map_nil]
  have hlen : ¬ (entries.filter (fun e => isSupportedImageName e.name)).length = 0 := by
    simpa [List.length_eq_zero] using hne
  have h1 : handleOneFile st f =
      { st with displayFiles := st.displayFiles ++ [DisplayEntry.archive f []] } := by
    simp [handleOneFile, himg, hzip, hent, hlen, hext]
  refine ⟨h1, by rw [h1], by rw [h1], ?_⟩
  intro es
  simp only [extractedOf, List.filter_filter]
  congr 1
  apply List.filter_congr
  intro e he
  cases hd : e.dir <;> cases hi : isSupportedImageName e.name <;> simp [hd, hi]

/-- Witness for C9: an archive whose sole entry is a directory named
`photos.jpg` (directory flag from the zip's attributes) is kept as a row with
an empty extracted list and adds nothing to the effective set. -/
theorem c9_directory_entries_never_extracted_witness :
    handleOneFile step1Init ⟨"album.zip", "application/zip", 7, some [⟨"photos.jpg", true, 3⟩]⟩ =
      { step1Init with displayFiles := step1Init.displayFiles ++
          [DisplayEntry.archive ⟨"album.zip", "application/zip", 7,
            some [⟨"photos.jpg", true, 3⟩]⟩ []] } ∧
    (handleOneFile step1Init
      ⟨"album.zip", "application/zip", 7, some [⟨"photos.jpg", true, 3⟩]⟩).referenceFiles =
      step1Init.referenceFiles ∧
    (handleOneFile step1Init
      ⟨"album.zip", "application/zip", 7, some [⟨"photos.jpg", true, 3⟩]⟩).messages =
      step1Init.messages ∧
    (∀ es : List ZipEntry, extractedOf es = extractedOf (es.filter (fun e => !e.dir))) :=
  c9_directory_entries_never_extracted step1Init
    ⟨"album.zip", "application/zip", 7, some [⟨"photos.jpg", true, 3⟩]⟩
    [⟨"photos.jpg", true, 3⟩] (by decide) (by decide) (by decide) (by decide) (by decide)

theorem matcherTick_stopped_absorbs (jobId : String) (rs : List FetchResult)
    (st : PollState) (h : st.stopped = true) :
    rs.foldl (matcherTick jobId) st = st := by
  induction rs with
  | nil => rfl
  | cons r t ih =>
    rw [List.foldl_cons]
    have : matcherTick jobId st r = st := by rw [matcherTick.eq_def, if_pos h]
    rw [this, ih]

theorem appTick_stopped_absorbs (jobId : String) (rs : List FetchResult)
    (st : PollState) (h : st.stopped = true) :
    rs.foldl (appTick jobId) st = st := by
  induction rs with
  | nil => rfl
  | cons r t ih =>
    rw [List.foldl_cons]
    have : appTick jobId st r = st := by rw [appTick.eq_def, if_pos h]
    rw [this, ih]

theorem matcherTick_pre_run (jobId : String) (pre : List FetchResult) :
    ∀ st : PollState, st.stopped = false → (∀ r ∈ pre, isNonTerminalOk r = true) →
      pre.foldl (matcherTick jobId) st =
        { st with fetches := st.fetches + pre.length,
                  statusText := preStatusText pre st.statusText } := by
  induction pre with
  | nil => intro st _ _; simp [preStatusText]
  | cons r t ih =>
    intro st hstop hpre
    cases r with
    | fail => exact absurd (hpre FetchResult.fail (by simp)) (by simp [isNonTerminalOk])
    | ok s res =>
      have hs := hpre (FetchResult.ok s res) (by simp)
      by_cases hd : s = "done"
      · rw [isNonTerminalOk, if_pos hd] at hs; exact absurd hs (by simp)
      · by_cases he : s = "error"
        · rw [isNonTerminalOk, if_neg hd, if_pos he] at hs; exact absurd hs (by simp)
        · have hstep : matcherTick jobId st (FetchResult.ok s res) =
              { st with fetches := st.fetches + 1, statusText := "Status: " ++ s } := by
            rw [matcherTick, if_neg (by simp [hstop])]
            simp [hd, he]
          rw [List.foldl_cons, hstep,
            ih { st with fetches := st.fetches + 1, statusText := "Status: " ++ s }
              (by simp [hstop]) (fun r hr => hpre r (List.mem_cons_of_mem _ hr))]
          simp [preStatusText, Nat.add_assoc, Nat.add_comm 1 t.length]

theorem appTick_pre_run (jobId : String) (pre : List FetchResult) :
    ∀ st : PollState, st.stopped = false → (∀ r ∈ pre, isNonTerminalOk r = true) →
      pre.foldl (appTick jobId) st =
        { st with fetches := st.fetches + pre.length,
                  statusText := preStatusText pre st.statusText } := by
  induction pre with
  | nil => intro st _ _; simp [preStatusText]
  | cons r t ih =>
    intro st hstop hpre
    cases r with
    | fail => exact absurd (hpre FetchResult.fail (by simp)) (by simp [isNonTerminalOk])
    | ok s res =>
      have hs := hpre (FetchResult.ok s res) (by simp)
      by_cases hd : s = "done"
      · rw [isNonTerminalOk, if_pos hd] at hs; exact absurd hs (by simp)
      · by_cases he : s = "error"
        · rw [isNonTerminalOk, if_neg hd, if_pos he] at hs; exact absurd hs (by simp)
        · have hstep : appTick jobId st (FetchResult.ok s res) =
              { st with fetches := st.fetches + 1, statusText := "Status: " ++ s } := by
            rw [appTick, if_neg (by simp [hstop])]
            simp [hd, he]
          rw [List.foldl_cons, hstep,
            ih { st with fetches := st.fetches + 1, statusText := "Status: " ++ s }
              (by simp [hstop]) (fun r hr => hpre r (List.mem_cons_of_mem _ hr))]
          simp [preStatusText, Nat.add_assoc, Nat.add_comm 1 t.length]

/-- C7 (confirmed): a match job never leaves a terminal state. For every poll
fetch sequence consisting of non-terminal successes followed by a `done` (or
`error`) report, both copies of `checkJobStatus` issue exactly one fetch per
preceding tick plus the terminal one, stop the timer there, and - whatever
further outcomes the transport would have produced - fetch nothing more; on
`done` the job-scoped download locator is set. In particular `pending,
pending, done` costs exactly three fetches. -/
theorem c7_terminal_state_stops_polling (jobId res msg : String)
    (pre post : List FetchResult) (hpre : ∀ r ∈ pre, isNonTerminalOk r = true) :
    runMatcherPoll jobId (pre ++ FetchResult.ok "done" res :: post) =
      { fetches := pre.length + 1, stopped := true, statusText := "Status: done",
        downloadHref := some (downloadUrl jobId),
        lastMessage := some "Job completed! You can download the ZIP." } ∧
    runMatcherPoll jobId (pre ++ FetchResult.ok "error" msg :: post) =
      { fetches := pre.length + 1, stopped := true, statusText := "Error: " ++ msg,
        downloadHref := none, lastMessage := some "Job failed. Check logs." } ∧
    runAppPoll jobId (pre ++ FetchResult.ok "done" res :: post) =
      { fetches := pre.length + 1, stopped := true, statusText := "Status: done",
        downloadHref := some (downloadUrl jobId), lastMessage := none } := by
  have hpre1 := matcherTick_pre_run jobId pre initPoll (by rfl) hpre
  have hpre2 := appTick_pre_run jobId pre initPoll (by rfl) hpre
  refine ⟨?_, ?_, ?_⟩
  · rw [runMatcherPoll, List.foldl_append, hpre1, List.foldl_cons]
    have hstep : matcherTick jobId
        { initPoll with fetches := initPoll.fetches + pre.length,
                        statusText := preStatusText pre initPoll.statusText }
        (FetchResult.ok "done" res) =
        { fetches := pre.length + 1, stopped := true, statusText := "Status: done",
          downloadHref := some (downloadUrl jobId),
          lastMessage := some "Job completed! You can download the ZIP." } := by
      rw [matcherTick, if_neg (by simp [initPoll])]
      simp [initPoll, Nat.add_comm]
    rw [hstep, matcherTick_stopped_absorbs jobId post _ (by rfl)]
  · rw [runMatcherPoll, List.foldl_append, hpre1, List.foldl_cons]
    have hstep : matcherTick jobId
        { initPoll with fetches := initPoll.fetches + pre.length,
                        statusText := preStatusText pre initPoll.statusText }
        (FetchResult.ok "error" msg) =
        { fetches := pre.length + 1, stopped := true, statusText := "Error: " ++ msg,
          downloadHref := none, lastMessage := some "Job failed. Check logs." } := by
      rw [matcherTick, if_neg (by simp [initPoll])]
      simp [initPoll, Nat.add_comm]
    rw [hstep, matcherTick_stopped_absorbs jobId post _ (by rfl)]
  · rw [runAppPoll, List.foldl_append, hpre2, List.foldl_cons]
    have hstep : appTick jobId
        { initPoll with fetches := initPoll.fetches + pre.length,
                        statusText := preStatusText pre initPoll.statusText }
        (FetchResult.ok "done" res) =
        { fetches := pre.length + 1, stopped := true, statusText := "Status: done",
          downloadHref := some (downloadUrl jobId), lastMessage := none } := by
      rw [appTick, if_neg (by simp [initPoll])]
      simp [initPoll, Nat.add_comm]
    rw [hstep, appTick_stopped_absorbs jobId post _ (by rfl)]

/-- Witness for C7 at the spec's example 9: the fetch sequence `pending,
pending, done` costs exactly three fetches, the timer stops, and the result
locator is available. -/
theorem c7_terminal_state_stops_polling_witness :
    runMatcherPoll "j1"
        [FetchResult.ok "pending" "", FetchResult.ok "pending" "", FetchResult.ok "done" "r"] =
      { fetches := 3, stopped := true, statusText := "Status: done",
        downloadHref := some (downloadUrl "j1"),
        lastMessage := some "Job completed! You can download the ZIP." } :=
  (c7_terminal_state_stops_polling "j1" "r" "m"
    [FetchResult.ok "pending" "", FetchResult.ok "pending" ""] [] (by decide)).1

/-- C8 (amended): in the matcher copy (`unnamed/part_001`) a transport-level
poll failure is caught, the timer is cleared at once, the check error is
surfaced, and no further fetch is issued for that job; the `frontend/js/app.js`
copy lacks the `try`/`catch` and keeps polling (see the counterexample), so
the claim holds for the matcher copy only. -/
theorem c8_matcher_transport_failure_stops (jobId : String)
    (pre post : List FetchResult) (hpre : ∀ r ∈ pre, isNonTerminalOk r = true) :
    runMatcherPoll jobId (pre ++ FetchResult.fail :: post) =
      { fetches := pre.length + 1, stopped := true,
        statusText := preStatusText pre "", downloadHref := none,
        lastMessage := some "Error checking job status" } := by
  rw [runMatcherPoll, List.foldl_append,
    matcherTick_pre_run jobId pre initPoll (by rfl) hpre, List.foldl_cons]
  have hstep : matcherTick jobId
      { initPoll with fetches := initPoll.fetches + pre.length,
                      statusText := preStatusText pre initPoll.statusText }
      FetchResult.fail =
      { fetches := pre.length + 1, stopped := true, statusText := preStatusText pre "",
        downloadHref := none, lastMessage := some "Error checking job status" } := by
    rw [matcherTick, if_neg (by simp [initPoll])]
    simp [initPoll, Nat.add_comm]
  rw [hstep, matcherTick_stopped_absorbs jobId post _ (by rfl)]

/-- Witness for C8 (amended): one pending tick, then a transport failure -
two fetches total, timer stopped, error surfaced, the trailing outcome never
fetched. -/
theorem c8_matcher_transport_failure_stops_witness :
    runMatcherPoll "j1"
        [FetchResult.ok "pending" "", FetchResult.fail, FetchResult.ok "done" "r"] =
      { fetches := 2, stopped := true, statusText := preStatusText [FetchResult.ok "pending" ""] "",
        downloadHref := none, lastMessage := some "Error checking job status" } :=
  c8_matcher_transport_failure_stops "j1" [FetchResult.ok "pending" ""]
    [FetchResult.ok "done" "r"] (by decide)

/-- Counterexample to C8 as stated: in the `frontend/js/app.js` copy (one of
the claim's cited code sites) a transport failure does not stop the timer -
the interval callback's rejection is unhandled - and the next tick issues a
further fetch for the same job. -/
theorem c8_counterexample :
    (runAppPoll "job1" [FetchResult.fail]).stopped = false ∧
    runAppPoll "job1" [FetchResult.fail, FetchResult.ok "pending" ""] =
      { fetches := 2, stopped := false, statusText := "Status: pending",
        downloadHref := none, lastMessage := none } :=
  ⟨by decide, by decide⟩

theorem removed_contains_eq (faces : List Face) (newNames : List String)
    (hnd : (faces.map (fun w => w.id)).Nodup) (w : Face) (hw : w ∈ faces) :
    (((faces.filter (fun v => !(newNames.contains v.source))).map
        (fun v => v.id)).contains w.id) = !(newNames.contains w.source) := by
  by_cases hk : newNames.contains w.source = true
  · rw [hk, Bool.not_true]
    have hnot : w.id ∉ (faces.filter (fun v => !(newNames.contains v.source))).map
        (fun v => v.id) := by
      intro hmem
      rcases List.mem_map.mp hmem with ⟨v, hvf, hvid⟩
      have hveq : v = w := List.inj_on_of_nodup_map hnd (List.mem_of_mem_filter hvf) hw hvid
      have hvp := List.of_mem_filter hvf
      rw [hveq, hk] at hvp
      simp at hvp
    simpa using hnot
  · have hk2 : newNames.contains w.source = false := by
      simpa using hk
    rw [hk2, Bool.not_false]
    have hin : w.id ∈ (faces.filter (fun v => !(newNames.contains v.source))).map
        (fun v => v.id) :=
      List.mem_map_of_mem _ (List.mem_filter.mpr ⟨hw, by rw [hk2]; rfl⟩)
    simpa using hin

theorem regInv_onFileChange (st : AppState) (newNames : List String) (h : RegInv st) :
    RegInv (onFileChange st newNames) := by
  obtain ⟨hsel, hpw, hlt⟩ := h
  have hnd : (st.faces.map (fun w => w.id)).Nodup := hpw.imp Nat.ne_of_lt
  refine ⟨?_, ?_, ?_⟩
  · show st.selected.filter
        (fun i => !(((st.faces.filter (fun v => !(newNames.contains v.source))).map
          (fun v => v.id)).contains i)) =
      ((st.faces.filter (fun v => newNames.contains v.source)).filter
        (fun v => v.sel)).map (fun v => v.id)
    rw [hsel, List.filter_map, List.filter_filter, List.filter_filter]
    congr 1
    apply List.filter_congr
    intro v hv
    show (!(((st.faces.filter (fun u => !(newNames.contains u.source))).map
        (fun u => u.id)).contains v.id) && v.sel) =
      (v.sel && newNames.contains v.source)
    rw [removed_contains_eq st.faces newNames hnd v hv, Bool.not_not]
    exact Bool.and_comm _ _
  · exact hpw.sublist ((List.filter_sublist st.faces).map (fun v => v.id))
  · intro v hv
    exact hlt v (List.mem_of_mem_filter hv)

theorem assignIds_filter_sel (ss : List String) :
    ∀ n : Nat, (assignIds n ss).filter (fun w => w.sel) = [] := by
  induction ss with
  | nil => intro n; rfl
  | cons s t ih => intro n; simp [assignIds, List.filter_cons, ih]

theorem assignIds_id_bounds (ss : List String) :
    ∀ (n : Nat) (w : Face), w ∈ assignIds n ss → n ≤ w.id ∧ w.id < n + ss.length := by
  induction ss with
  | nil => intro n w hw; simp [assignIds] at hw
  | cons s t ih =>
    intro n w hw
    rw [assignIds] at hw
    rcases List.mem_cons.mp hw with hw1 | hw1
    · subst hw1; simp
    · rcases ih (n + 1) w hw1 with ⟨h1, h2⟩
      constructor
      · omega
      · simpa [Nat.add_assoc, Nat.add_comm 1 t.length] using h2

theorem assignIds_pairwise (ss : List String) :
    ∀ n : Nat, ((assignIds n ss).map (fun w => w.id)).Pairwise (· < ·) := by
  induction ss with
  | nil => intro n; simp [assignIds]
  | cons s t ih =>
    intro n
    rw [assignIds, List.map_cons]
    apply List.Pairwise.cons
    · intro b hb
      rcases List.mem_map.mp hb with ⟨w, hw, hwid⟩
      have h1 := (assignIds_id_bounds t (n + 1) w hw).1
      show n < b
      omega
    · exact ih (n + 1)

theorem regInv_registerFaces (st : AppState) (sources : List String) (h : RegInv st) :
    RegInv (registerFaces st sources) := by
  obtain ⟨hsel, hpw, hlt⟩ := h
  refine ⟨?_, ?_, ?_⟩
  · show st.selected = ((st.faces ++ assignIds st.nextIndex sources).filter
      (fun w => w.sel)).map (fun w => w.id)
    rw [List.filter_append, assignIds_filter_sel sources st.nextIndex, List.append_nil, hsel]
  · show ((st.faces ++ assignIds st.nextIndex sources).map (fun w => w.id)).Pairwise (· < ·)
    rw [List.map_append]
    apply List.pairwise_append.mpr
    refine ⟨hpw, assignIds_pairwise sources st.nextIndex, ?_⟩
    intro a ha b hb
    rcases List.mem_map.mp ha with ⟨w, hw, hwid⟩
    rcases List.mem_map.mp hb with ⟨v, hv, hvid⟩
    have h1 := hlt w hw
    have h2 := (assignIds_id_bounds sources st.nextIndex v hv).1
    omega
  · intro w hw
    show w.id < st.nextIndex + sources.length
    rcases List.mem_append.mp hw with hw1 | hw1
    · have := hlt w hw1; omega
    · exact (assignIds_id_bounds sources st.nextIndex w hw1).2

theorem regInv_clickFace (st : AppState) (i : Nat) (h : RegInv st) :
    RegInv (clickFace st i) := by
  obtain ⟨hsel, hpw, hlt⟩ := h
  have hids : ((st.faces.map
      (fun w => if w.id = i then { w with sel := !w.sel } else w)).map (fun w => w.id)) =
      st.faces.map (fun w => w.id) := by
    rw [List.map_map]
    apply List.map_congr_left
    intro w _
    by_cases hwi : w.id = i <;> simp [Function.comp, hwi]
  refine ⟨rfl, ?_, ?_⟩
  · show ((st.faces.map
      (fun w => if w.id = i then { w with sel := !w.sel } else w)).map (fun w => w.id)).Pairwise (· < ·)
    rw [hids]; exact hpw
  · intro w hw
    rcases List.mem_map.mp hw with ⟨v, hv, hvw⟩
    have hvlt := hlt v hv
    show w.id < st.nextIndex
    rw [← hvw]
    by_cases hvi : v.id = i
    · simp only [if_pos hvi]
      exact hvlt
    · simp only [if_neg hvi]
      exact hvlt

theorem eraseIdx_eq_filter_of_nodup (l : List Face) :
    ∀ (k : Nat) (w : Face), l[k]? = some w → (l.map (fun v => v.id)).Nodup →
      l.eraseIdx k = l.filter (fun v => v.id != w.id) := by
  induction l with
  | nil => intro k w hk _; simp at hk
  | cons a t ih =>
    intro k w hk hnd
    rw [List.map_cons, List.nodup_cons] at hnd
    obtain ⟨hna, hndt⟩ := hnd
    cases k with
    | zero =>
      have ha : a = w := by simpa using hk
      subst ha
      show t = (a :: t).filter (fun v => v.id != a.id)
      rw [List.filter_cons]
      have h0 : (a.id != a.id) = false := by simp
      rw [h0, if_neg (by simp)]
      exact (List.filter_eq_self.mpr (fun v hv => bne_iff_ne.mpr
        (fun hEq => hna (by rw [← hEq]; exact List.mem_map_of_mem _ hv)))).symm
    | succ k2 =>
      have hk2 : t[k2]? = some w := by simpa using hk
      have hw : w ∈ t := List.getElem?_mem hk2
      have ha : (a.id != w.id) = true := bne_iff_ne.mpr
        (fun hEq => hna (by rw [hEq]; exact List.mem_map_of_mem _ hw))
      show a :: t.eraseIdx k2 = (a :: t).filter (fun v => v.id != w.id)
      rw [List.filter_cons, ha, if_pos rfl, ih k2 w hk2 hndt]

theorem deleteFaceAt_of_getElem_some (st : AppState) (k : Nat) (w : Face)
    (h : st.faces[k]? = some w) :
    deleteFaceAt st k =
      { st with faces := st.faces.eraseIdx k,
                selected := st.selected.filter (fun i => i != w.id),
                uploadedReferences :=
                  if (st.faces.eraseIdx k).any (fun v => v.source == w.source) then
                    st.uploadedReferences
                  else st.uploadedReferences.filter (fun n => n != w.source) } := by
  rw [deleteFaceAt.eq_def, h]

theorem regInv_deleteFaceAt (st : AppState) (k : Nat) (h : RegInv st) :
    RegInv (deleteFaceAt st k) := by
  obtain ⟨hsel, hpw, hlt⟩ := h
  have hnd : (st.faces.map (fun w => w.id)).Nodup := hpw.imp Nat.ne_of_lt
  cases hk : st.faces[k]? with
  | none =>
    have : deleteFaceAt st k = st := by rw [deleteFaceAt.eq_def, hk]
    rw [this]; exact ⟨hsel, hpw, hlt⟩
  | some w =>
    rw [deleteFaceAt_of_getElem_some st k w hk]
    have herase := eraseIdx_eq_filter_of_nodup st.faces k w hk hnd
    refine ⟨?_, ?_, ?_⟩
    · show st.selected.filter (fun i => i != w.id) =
        ((st.faces.eraseIdx k).filter (fun v => v.sel)).map (fun v => v.id)
      rw [herase, hsel, List.filter_map, List.filter_filter, List.filter_filter]
      congr 1
      apply List.filter_congr
      intro v _
      show ((v.id != w.id) && v.sel) = (v.sel && (v.id != w.id))
      exact Bool.and_comm _ _
    · exact hpw.sublist ((List.eraseIdx_sublist st.faces k).map (fun v => v.id))
    · intro v hv
      exact hlt v ((List.eraseIdx_sublist st.faces k).subset hv)

theorem regInv_reachable (st : AppState) (h : Reachable st) : RegInv st := by
  induction h with
  | init =>
    refine ⟨rfl, ?_, ?_⟩
    · simp [initApp]
    · intro w hw; simp [initApp] at hw
  | dropAdd st newNames _ ih => exact regInv_onFileChange _ _ ih
  | dropDelete st i _ ih => exact regInv_onFileChange _ _ ih
  | dropReset st _ ih => exact regInv_onFileChange _ _ ih
  | upload st sources _ hne hsrc ih => exact regInv_registerFaces _ _ ih
  | click st i _ hi ih => exact regInv_clickFace _ _ ih
  | deleteFace st k _ ih => exact regInv_deleteFaceAt _ _ ih
  | resetRef st _ _ =>
    refine regInv_onFileChange _ _ ⟨rfl, ?_, ?_⟩
    · simp
    · intro w hw; exact absurd hw (List.not_mem_nil w)

/-- C5 (confirmed): in every reachable state every selected id belongs to a
currently registered detection, and when the removal notification fires for a
new file list, every detection from a removed file is gone and the selection
is pruned in the same step - the resulting selection again references only
remaining detections. -/
theorem c5_selection_never_orphaned (st : AppState) (h : Reachable st)
    (newNames : List String) :
    (∀ i ∈ st.selected, ∃ w ∈ st.faces, w.id = i) ∧
    (∀ w ∈ (onFileChange st newNames).faces, newNames.contains w.source = true) ∧
    (∀ i ∈ (onFileChange st newNames).selected,
      ∃ w ∈ (onFileChange st newNames).faces, w.id = i) := by
  have hinv := regInv_reachable st h
  have hinv2 := regInv_onFileChange st newNames hinv
  refine ⟨?_, ?_, ?_⟩
  · intro i hi
    rw [hinv.1] at hi
    rcases List.mem_map.mp hi with ⟨w, hw, hwi⟩
    exact ⟨w, List.mem_of_mem_filter hw, hwi⟩
  · intro w hw
    have hw2 : w ∈ st.faces.filter (fun v => newNames.contains v.source) := hw
    exact @List.of_mem_filter Face (fun v => newNames.contains v.source) w st.faces hw2
  · intro i hi
    rw [hinv2.1] at hi
    rcases List.mem_map.mp hi with ⟨w, hw, hwi⟩
    exact ⟨w, List.mem_of_mem_filter hw, hwi⟩

/-- Witness for C5 at a concrete reachable state with a live selection, with
the removal notification clearing the file list. -/
theorem c5_selection_never_orphaned_witness :
    (∀ i ∈ c5WitnessState.selected, ∃ w ∈ c5WitnessState.faces, w.id = i) ∧
    (∀ w ∈ (onFileChange c5WitnessState []).faces,
      ([] : List String).contains w.source = true) ∧
    (∀ i ∈ (onFileChange c5WitnessState []).selected,
      ∃ w ∈ (onFileChange c5WitnessState []).faces, w.id = i) :=
  c5_selection_never_orphaned c5WitnessState
    (Reachable.click _ 1 (Reachable.upload _ _ (Reachable.dropAdd _ _ Reachable.init)
      (by decide) (by decide)) (by decide)) []

/-- C6 (confirmed): in every reachable state the stored selection is exactly
the currently selected detection ids in ascending id order, and whenever the
match request is actually sent its `selected_indices_str` field is those ids
joined with commas in that ascending order. -/
theorem c6_selection_sorted_wire_format (st : AppState) (h : Reachable st)
    (fr ft : FileObj) (mode : String) :
    st.selected = (st.faces.filter (fun w => w.sel)).map (fun w => w.id) ∧
    st.selected.Pairwise (· < ·) ∧
    (st.selected ≠ [] →
      matchBtnBuild (some fr) (some ft) st.selected mode =
        HandlerResult.ok ⟨fr, ft, joinComma st.selected, mode⟩) := by
  have hinv := regInv_reachable st h
  refine ⟨hinv.1, ?_, ?_⟩
  · rw [hinv.1]
    exact (hinv.2.1).sublist ((List.filter_sublist st.faces).map (fun w => w.id))
  · intro hne
    have hlen : ¬ st.selected.length = 0 := by simpa [List.length_eq_zero] using hne
    simp [matchBtnBuild, hlen]

/-- Witness for C6: ids 2 and 0 clicked in that order still give the
ascending selection `[0, 2]`, transmitted as `0,2`. -/
theorem c6_selection_sorted_wire_format_witness :
    c6WitnessState.selected = [0, 2] ∧
    c6WitnessState.selected.Pairwise (· < ·) ∧
    matchBtnBuild (some ⟨"a.jpg", 1⟩) (some ⟨"t.zip", 2⟩) c6WitnessState.selected
        "individually" =
      HandlerResult.ok ⟨⟨"a.jpg", 1⟩, ⟨"t.zip", 2⟩,
        joinComma c6WitnessState.selected, "individually"⟩ ∧
    joinComma c6WitnessState.selected = "0,2" :=
  ⟨by decide,
   (c6_selection_sorted_wire_format c6WitnessState
     (Reachable.click _ 0 (Reachable.click _ 2 (Reachable.upload _ _
       (Reachable.dropAdd _ _ Reachable.init) (by decide) (by decide)) (by decide))
       (by decide)) ⟨"a.jpg", 1⟩ ⟨"t.zip", 2⟩ "individually").2.1,
   (c6_selection_sorted_wire_format c6WitnessState
     (Reachable.click _ 0 (Reachable.click _ 2 (Reachable.upload _ _
       (Reachable.dropAdd _ _ Reachable.init) (by decide) (by decide)) (by decide))
       (by decide)) ⟨"a.jpg", 1⟩ ⟨"t.zip", 2⟩ "individually").2.2 (by decide),
   by decide⟩

/-- C10 (amended): the propagation is per-step only - when the face deleted is
the last remaining detection whose source is a given reference file, that
file's name is removed from the uploaded reference list in that step. (The
global form of the claim fails across drop-zone updates; see the
counterexample.) -/
theorem c10_last_detection_delete_removes_file (st : AppState) (k : Nat) (w : Face)
    (hk : st.faces[k]? = some w)
    (hlast : ∀ v ∈ st.faces.eraseIdx k, v.source ≠ w.source) :
    w.source ∉ (deleteFaceAt st k).uploadedReferences ∧
    (deleteFaceAt st k).faces = st.faces.eraseIdx k := by
  rw [deleteFaceAt_of_getElem_some st k w hk]
  have hany : (st.faces.eraseIdx k).any (fun v => v.source == w.source) = false := by
    apply List.any_eq_false.mpr
    intro v hv
    simp [hlast v hv]
  constructor
  · show w.source ∉ (if (st.faces.eraseIdx k).any (fun v => v.source == w.source) then
      st.uploadedReferences else st.uploadedReferences.filter (fun n => n != w.source))
    rw [hany, if_neg (by simp)]
    intro hmem
    have := List.of_mem_filter hmem
    simp at this
  · rfl

/-- Witness for C10 (amended): deleting the sole detection of `s.jpg` removes
`s.jpg` from the uploaded reference list. -/
theorem c10_last_detection_delete_removes_file_witness :
    ("s.jpg" : String) ∉ (deleteFaceAt c10WitnessState 0).uploadedReferences ∧
    (deleteFaceAt c10WitnessState 0).faces = c10WitnessState.faces.eraseIdx 0 :=
  c10_last_detection_delete_removes_file c10WitnessState 0 ⟨0, "s.jpg", false⟩
    (by decide) (by decide)

/-- Counterexample to C10 as stated: a reachable trace in which the only
detection of `s.jpg` is deleted - the step itself removes `s.jpg` from the
uploaded list, as the code intends - but a later drop-zone row deletion
rebuilds the uploaded list from the drop zone's unchanged file list, so the
final state retains `s.jpg` for submission with no displayed detection even
though its detections have been deleted. -/
theorem c10_counterexample :
    Reachable c10FinalState ∧
    c10MidState.faces = [⟨0, "s.jpg", false⟩] ∧
    (deleteFaceAt c10MidState 0).faces = [] ∧
    (deleteFaceAt c10MidState 0).uploadedReferences = ["t.jpg"] ∧
    c10FinalState.uploadedReferences = ["s.jpg"] ∧
    c10FinalState.faces = [] :=
  ⟨Reachable.dropDelete _ 1 (Reachable.deleteFace _ 0 (Reachable.upload _ _
      (Reachable.dropAdd _ _ Reachable.init) (by decide) (by decide))),
   by decide, by decide, by decide, by decide, by decide⟩
